import Mathlib

/-!
Shallow embedding of `app.py` (SimpleBotRunner), the bot supervisor of the
Tcprun repository, together with proofs about the claims of its
specification.

Modelling conventions:
* Python dicts keyed by bot id / pid / fd path are association lists
  (`alLookup` / `alSet` / `alErase`); `alSet` replaces in place like a dict
  assignment, `alErase` removes the key like `del`.
* Python objects are heap references: `SupState.heap` maps a reference
  number to the mutable `bot_info` dictionary, `SupState.bots` is the
  `self.bots` list of references, and a registry entry keeps the reference
  of the `bot_info` it aliases (the source stores the same dict in
  `self.bots` and in `self.processes[...]["bot_info"]`).
* The operating system is explicit state: `SupState.procs` maps a pid to
  whether the process is still running or has exited with a code; a `Popen`
  handle is a pid plus the cached `returncode` (set by `wait`/`poll`, left
  untouched by `kill`).  OS nondeterminism (does a launch succeed, does a
  process exit within the grace period) is passed in as oracle arguments.
* Log files are explicit: `fds` is the table of opened append handles and
  `logContents` the chunks written so far, keyed by path.  The child
  process's own output interleaving is outside the model.
* Each `threading.Thread(target=_monitor_bot_exit, ...)` spawn is recorded
  in `watchers`; the thread body itself is `monitor_bot_exit`, which in the
  step relation (`applyOp`) only fires once its process has exited, since
  `process.wait()` blocks until then.
-/

section AssocList

variable {κ : Type} {α : Type} [DecidableEq κ]

/-- Dictionary lookup: `d[k]` / `k in d`. -/
def alLookup (k : κ) : List (κ × α) → Option α
  | [] => none
  | p :: rest => if k = p.1 then some p.2 else alLookup k rest

/-- Dictionary assignment `d[k] = v`: replaces in place, or appends. -/
def alSet (k : κ) (v : α) : List (κ × α) → List (κ × α)
  | [] => [(k, v)]
  | p :: rest => if k = p.1 then (k, v) :: rest else p :: alSet k v rest

/-- Dictionary deletion `del d[k]`: the key is gone afterwards. -/
def alErase (k : κ) : List (κ × α) → List (κ × α)
  | [] => []
  | p :: rest => if p.1 = k then alErase k rest else p :: alErase k rest

/-- The keys of the dictionary. -/
def alKeys (l : List (κ × α)) : List κ :=
  l.map Prod.fst

/-- How many entries carry the key `k`. -/
def keyCount (k : κ) (l : List (κ × α)) : Nat :=
  (l.filter (fun p => decide (p.1 = k))).length

end AssocList

/-- One discovered bot: the `bot_info` dictionary built by
`create_bot_info` (static discovery data plus the mutable bookkeeping
fields `status`, `pid`, `start_time`, `exit_code`, `log_fd`). -/
structure BotInfo where
  id : String
  name : String
  displayName : String
  folder : String
  file : String
  fullPath : String
  botType : String
  logFile : String
  fileSize : Nat
  lines : Nat
  hasRequirements : Bool
  status : String
  pid : Option Nat
  startTime : Option Nat
  exitCode : Option Int
  logFd : Option Nat
deriving DecidableEq, Repr

/-- State of an OS process as the kernel sees it. -/
inductive ProcState where
  | running
  | exited (code : Int)
deriving DecidableEq, Repr

/-- An entry of `self.processes`: the `Popen` handle (pid plus the cached
`returncode`), the reference of the aliased `bot_info` dict, and the log
file descriptor stored under the `log_fd` key. -/
structure RunRec where
  pid : Nat
  returncode : Option Int
  botRef : Nat
  fd : Nat
deriving DecidableEq, Repr

/-- An open (or closed) append-mode file handle. -/
structure Fd where
  path : String
  isOpen : Bool
deriving DecidableEq, Repr

/-- The whole supervisor state plus the modelled OS. -/
structure SupState where
  heap : List (Nat × BotInfo)
  bots : List Nat
  processes : List (String × RunRec)
  procs : List (Nat × ProcState)
  fds : List (Nat × Fd)
  logContents : List (String × List String)
  watchers : List (String × Nat)
  logsDir : String
  clock : Nat
  nextPid : Nat
  nextFd : Nat
  nextRef : Nat
deriving DecidableEq, Repr

/-- `process.poll()`: `none` means the process is still running, `some c`
that it has exited with code `c` (the source compares the result with
`None` to test liveness). -/
def pollProc (procs : List (Nat × ProcState)) (pid : Nat) : Option Int :=
  match alLookup pid procs with
  | some (ProcState.exited c) => some c
  | _ => none

/-- Append chunks to a log file (the file is created on first write,
matching append mode). -/
def appendLog (path : String) (chunk : List String)
    (l : List (String × List String)) : List (String × List String) :=
  alSet path ((alLookup path l).getD [] ++ chunk) l

/-- Close a file handle; closing an unknown descriptor is a no-op. -/
def closeFd (fd : Nat) (fds : List (Nat × Fd)) : List (Nat × Fd) :=
  match alLookup fd fds with
  | some f => alSet fd ({ f with isOpen := false }) fds
  | none => fds

/-- The `'='*60` delimiter line of the log banner. -/
def bannerSep : String :=
  String.mk (List.replicate 60 (Char.ofNat 61))

/-- The banner `start_bot` writes before launching (separator, start
timestamp, command line, separator). -/
def bannerLines (clock : Nat) (bot : BotInfo) : List String :=
  [bannerSep,
   "Bot started at " ++ toString clock,
   "Command: cd " ++ bot.folder ++ " && python app.py",
   bannerSep]

/-- The already-running check at the top of `start_bot`: if the bot id has
a registry entry whose process polls as alive, return `true` (the caller
then reports success without doing anything).  A poll that finds the
process dead caches the exit code on the handle and the start falls
through to a fresh launch. -/
def start_check (s : SupState) (ref : Nat) : SupState × Bool :=
  match alLookup ref s.heap with
  | none => (s, false)
  | some bot =>
    match alLookup bot.id s.processes with
    | none => (s, false)
    | some pr =>
      match pollProc s.procs pr.pid with
      | none => (s, true)
      | some c =>
        let pr2 := { pr with returncode := some c }
        let s2 := { s with processes := alSet bot.id pr2 s.processes }
        (s2, false)

/-- `install_dependencies`: a best-effort `pip install` subprocess; it
touches no supervisor state and every failure is swallowed. -/
def install_dependencies (s : SupState) : SupState := s

/-- The body of `start_bot` after the already-running check: open the log
file, write the banner, then `Popen`.  `launchOk` is the OS oracle: `true`
means the spawn succeeds, `false` that it raises.  On success the
`bot_info` fields are updated, the record is stored in the registry and a
monitor thread is spawned; on failure the function returns `False` with
the log handle already opened and the banner already written. -/
def start_launch (s0 : SupState) (ref : Nat) (launchOk : Bool) :
    SupState × Bool :=
  match alLookup ref s0.heap with
  | none => (s0, false)
  | some bot =>
    let s := install_dependencies s0
    let fd := s.nextFd
    let s1 := { s with
      fds := alSet fd ({ path := bot.logFile, isOpen := true }) s.fds,
      nextFd := fd + 1,
      logContents := appendLog bot.logFile (bannerLines s.clock bot) s.logContents }
    if launchOk then
      let pid := s1.nextPid
      let bot2 := { bot with
        pid := some pid,
        status := "running",
        startTime := some s1.clock,
        exitCode := none,
        logFd := some fd }
      let s2 := { s1 with
        procs := alSet pid ProcState.running s1.procs,
        nextPid := pid + 1,
        heap := alSet ref bot2 s1.heap,
        processes := alSet bot.id
          ({ pid := pid, returncode := none, botRef := ref, fd := fd }) s1.processes,
        watchers := s1.watchers ++ [(bot.id, pid)] }
      (s2, true)
    else
      (s1, false)

/-- `SimpleBotRunner.start_bot`. -/
def start_bot (s : SupState) (ref : Nat) (launchOk : Bool) : SupState × Bool :=
  match start_check s ref with
  | (s1, true) => (s1, true)
  | (s1, false) => start_launch s1 ref launchOk

/-- `SimpleBotRunner._monitor_bot_exit`, after `process.wait()` returned
`exitCode`: if the registry still has an entry for the id, record the exit
code on the descriptor, close the log handle and delete the entry;
otherwise do nothing. -/
def monitor_bot_exit (s : SupState) (botId : String) (exitCode : Int) : SupState :=
  match alLookup botId s.processes with
  | none => s
  | some pr =>
    let heap2 :=
      match alLookup pr.botRef s.heap with
      | some bot =>
          alSet pr.botRef ({ bot with status := "stopped", exitCode := some exitCode }) s.heap
      | none => s.heap
    { s with
      heap := heap2,
      fds := closeFd pr.fd s.fds,
      processes := alErase botId s.processes }

/-- `SimpleBotRunner.stop_bot`.  `graceExit` is the OS oracle for the
grace period: `some c` means the process exits with code `c` before the
5-second `wait` times out, `none` that the wait raises and the process is
force-killed.  A process that has already exited makes `wait` return at
once, whatever the oracle says.  Note that after `kill()` the source reads
`process.returncode` without waiting, so the forced path records the stale
cached value. -/
def stop_bot (s : SupState) (botId : String) (graceExit : Option Int) :
    SupState × Bool :=
  match alLookup botId s.processes with
  | none => (s, false)
  | some pr =>
    let waited : Option Int :=
      match pollProc s.procs pr.pid with
      | some c => some c
      | none => graceExit
    let procs2 :=
      match waited with
      | some c => alSet pr.pid (ProcState.exited c) s.procs
      | none => alSet pr.pid (ProcState.exited (-9)) s.procs
    let rc2 : Option Int :=
      match waited with
      | some c => some c
      | none => pr.returncode
    let heap2 :=
      match alLookup pr.botRef s.heap with
      | some bot =>
          alSet pr.botRef ({ bot with status := "stopped", exitCode := rc2 }) s.heap
      | none => s.heap
    let s2 := { s with
      procs := procs2,
      heap := heap2,
      fds := closeFd pr.fd s.fds,
      processes := alErase botId s.processes }
    (s2, true)

/-- The loop of `start_all_bots` over the descriptor list, one launch
oracle per iteration.  The second component is the local `success_count`;
the Python function only logs it and returns `None`. -/
def start_all_loop : SupState → List Nat → List Bool → SupState × Nat
  | s, [], _ => (s, 0)
  | s, r :: rs, os =>
    let p := start_bot s r (os.headD true)
    let q := start_all_loop p.1 rs os.tail
    (q.1, if p.2 then q.2 + 1 else q.2)

/-- `SimpleBotRunner.start_all_bots`. -/
def start_all_bots (s : SupState) (oracles : List Bool) : SupState × Nat :=
  start_all_loop s s.bots oracles

/-- The loop of `stop_all_bots` over a snapshot of the registry keys. -/
def stop_all_loop : SupState → List String → List (Option Int) → SupState
  | s, [], _ => s
  | s, k :: ks, os => stop_all_loop (stop_bot s k (os.headD none)).1 ks os.tail

/-- `SimpleBotRunner.stop_all_bots`. -/
def stop_all_bots (s : SupState) (oracles : List (Option Int)) : SupState :=
  stop_all_loop s (alKeys s.processes) oracles

/-- One row of `get_status`. -/
structure StatusEntry where
  id : String
  name : String
  displayName : String
  botType : String
  status : String
  running : Bool
  pid : Option Nat
  folder : String
  fileSize : Nat
  lines : Nat
  hasRequirements : Bool
  uptime : Option Nat := none
  exitCode : Option Int := none
deriving DecidableEq, Repr

/-- The `get_status` row of one descriptor: registry presence decides the
`running` flag; a live poll adds the uptime, a dead poll the exit code.
(`process.poll()` also caches the code on the handle; that cache is never
observably read again, `stop_bot` re-derives the code through `wait`, so
the embedding keeps `get_status` read-only.) -/
def statusOf (s : SupState) (bot : BotInfo) : StatusEntry :=
  let base : StatusEntry := {
    id := bot.id,
    name := bot.name,
    displayName := bot.displayName,
    botType := bot.botType,
    status := bot.status,
    running := false,
    pid := bot.pid,
    folder := bot.displayName,
    fileSize := bot.fileSize,
    lines := bot.lines,
    hasRequirements := bot.hasRequirements }
  match alLookup bot.id s.processes with
  | none => base
  | some pr =>
    match pollProc s.procs pr.pid with
    | none =>
        { base with
          running := true,
          uptime := bot.startTime.map (fun t => s.clock - t) }
    | some c => { base with exitCode := some c }

/-- `SimpleBotRunner.get_status`. -/
def get_status (s : SupState) : List StatusEntry :=
  s.bots.filterMap (fun r => (alLookup r s.heap).map (statusOf s))

/-- The raw facts discovery reads off the filesystem for one unit
directory: folder path, inferred kind, size, line count, manifest
presence, and the `int(time.time())` read while building the id. -/
structure RawBot where
  folder : String
  folderName : String
  botType : String
  fileSize : Nat
  lines : Nat
  hasRequirements : Bool
  tstamp : Nat
deriving DecidableEq, Repr

/-- `create_bot_info`: the freshly built descriptor dictionary. -/
def mkBotInfo (logsDir : String) (r : RawBot) : BotInfo := {
  id := r.folderName ++ "_" ++ toString r.tstamp,
  name := "Bot: " ++ r.folderName,
  displayName := r.folderName,
  folder := r.folder,
  file := "app.py",
  fullPath := r.folder ++ "/app.py",
  botType := r.botType,
  logFile := logsDir ++ "/" ++ r.folderName ++ ".log",
  fileSize := r.fileSize,
  lines := r.lines,
  hasRequirements := r.hasRequirements,
  status := "stopped",
  pid := none,
  startTime := none,
  exitCode := none,
  logFd := none }

/-- The loop of `scan_bots`: allocate one fresh descriptor object per
discovered unit and append its reference to `self.bots`.  Directories the
scan skips (no entry file, read failure) simply do not appear in `raws`. -/
def scan_loop : SupState → List RawBot → SupState
  | s, [] => s
  | s, r :: rs =>
    scan_loop
      { s with
        heap := alSet s.nextRef (mkBotInfo s.logsDir r) s.heap,
        bots := s.bots ++ [s.nextRef],
        nextRef := s.nextRef + 1 }
      rs

/-- A JSON reply of the control surface.  The optional fields stand for
keys that may be absent from the reply dictionary. -/
structure ApiResponse where
  success : Bool
  message : String
  startedCount : Option Nat := none
  count : Option Nat := none
deriving DecidableEq, Repr

/-- The linear search of `api_start_bot` over `runner.bots` for the first
descriptor whose id matches. -/
def findBotRef (s : SupState) (botId : String) : Option Nat :=
  s.bots.find? (fun r =>
    match alLookup r s.heap with
    | some b => decide (b.id = botId)
    | none => false)

/-- `api_start_bot`: linear search of `runner.bots` for the id, then
`start_bot`; an unknown id is a 404 with `success: false`. -/
def api_start_bot (s : SupState) (botId : String) (launchOk : Bool) :
    SupState × ApiResponse :=
  match findBotRef s botId with
  | some ref =>
    match alLookup ref s.heap with
    | some bot =>
      let p := start_bot s ref launchOk
      (p.1, { success := p.2, message := "Started " ++ bot.name })
    | none => (s, { success := false, message := "Bot not found" })
  | none => (s, { success := false, message := "Bot not found" })

/-- `api_stop_bot`. -/
def api_stop_bot (s : SupState) (botId : String) (graceExit : Option Int) :
    SupState × ApiResponse :=
  let p := stop_bot s botId graceExit
  (p.1, { success := p.2,
          message := if p.2 then "Stopped bot" else "Bot not running" })

/-- `api_start_all`: runs `start_all_bots` and answers with a fixed
message; the reply carries no count (the source's `start_all_bots` returns
`None` and the route ignores it). -/
def api_start_all (s : SupState) (oracles : List Bool) :
    SupState × ApiResponse :=
  ((start_all_bots s oracles).1,
   { success := true, message := "Starting all bots" })

/-- `api_rescan`: `runner.bots = []` then `scan_bots()`; the reply carries
the new descriptor count.  `runner.processes` is not touched. -/
def api_rescan (s : SupState) (raws : List RawBot) : SupState × ApiResponse :=
  let s1 := scan_loop ({ s with bots := [] }) raws
  (s1, { success := true, message := "Rescanned bots",
         count := some s1.bots.length })

/-- The `/health` reply. -/
structure HealthResp where
  status : String
  bots : Nat
  running : Nat
deriving DecidableEq, Repr

/-- The `/health` route. -/
def health (s : SupState) : HealthResp :=
  { status := "healthy", bots := s.bots.length, running := s.processes.length }

/-- One atomic event of the system: a control-surface call (with its OS
oracles), a watcher thread observing an exit, or the environment: an OS
process terminating on its own. -/
inductive Op where
  | start (ref : Nat) (launchOk : Bool)
  | apiStart (botId : String) (launchOk : Bool)
  | stop (botId : String) (graceExit : Option Int)
  | startAll (oracles : List Bool)
  | stopAll (oracles : List (Option Int))
  | monitor (botId : String) (pid : Nat)
  | rescan (raws : List RawBot)
  | status
  | procExit (pid : Nat) (code : Int)

/-- The step function.  A `monitor` op fires only when its process has
exited (`process.wait()` blocks until then); `procExit` is the environment
terminating a running process. -/
def applyOp (s : SupState) (op : Op) : SupState :=
  match op with
  | Op.start ref ok => (start_bot s ref ok).1
  | Op.apiStart botId ok => (api_start_bot s botId ok).1
  | Op.stop botId g => (stop_bot s botId g).1
  | Op.startAll os => (start_all_bots s os).1
  | Op.stopAll os => stop_all_bots s os
  | Op.monitor botId pid =>
    match pollProc s.procs pid with
    | some c => monitor_bot_exit s botId c
    | none => s
  | Op.rescan raws => (api_rescan s raws).1
  | Op.status => s
  | Op.procExit pid code =>
    match alLookup pid s.procs with
    | some ProcState.running =>
        { s with procs := alSet pid (ProcState.exited code) s.procs }
    | _ => s

/-- Run a sequence of events. -/
def applyOps (s : SupState) (ops : List Op) : SupState :=
  ops.foldl applyOp s

/-- Is the event an explicit start command? -/
def isStartOp : Op → Bool
  | Op.start _ _ => true
  | Op.apiStart _ _ => true
  | Op.startAll _ => true
  | _ => false

/-- The interleaving of two racing `start_bot` calls on the same bot in
which both already-running checks execute (both finding nothing, hence
read-only) before either launch body runs.  The source takes no lock, so
this schedule is admissible; each thread then executes its launch body. -/
def doubleStart (s : SupState) (ref : Nat) : SupState :=
  (start_launch (start_launch s ref true).1 ref true).1

section AssocLemmas

variable {κ α : Type} [DecidableEq κ]

theorem alLookup_set_self (k : κ) (v : α) (l : List (κ × α)) :
    alLookup k (alSet k v l) = some v := by
  induction l with
  | nil => simp [alSet, alLookup]
  | cons p rest ih =>
    by_cases h : k = p.1
    · simp [alSet, alLookup, h]
    · simp [alSet, alLookup, h, ih]

theorem alLookup_set_ne {k k2 : κ} (h : k ≠ k2) (v : α) (l : List (κ × α)) :
    alLookup k (alSet k2 v l) = alLookup k l := by
  induction l with
  | nil => simp [alSet, alLookup, h]
  | cons p rest ih =>
    by_cases h2 : k2 = p.1
    · subst h2
      simp [alSet, alLookup, h]
    · simp [alSet, alLookup, h2, ih]

theorem alLookup_erase_self (k : κ) (l : List (κ × α)) :
    alLookup k (alErase k l) = none := by
  induction l with
  | nil => rfl
  | cons p rest ih =>
    by_cases h : p.1 = k
    · simpa [alErase, h] using ih
    · simpa [alErase, alLookup, h, Ne.symm h] using ih

theorem alLookup_erase_ne {k k2 : κ} (h : k ≠ k2) (l : List (κ × α)) :
    alLookup k (alErase k2 l) = alLookup k l := by
  induction l with
  | nil => rfl
  | cons p rest ih =>
    by_cases h2 : p.1 = k2
    · have hk : ¬ k = p.1 := fun hh => h (hh.trans h2)
      simp [alErase, alLookup, h2, hk, h, ih]
    · by_cases h3 : k = p.1
      · simp [alErase, alLookup, h2, h3]
      · simp [alErase, alLookup, h2, h3, ih]

theorem mem_alSet {p : κ × α} {k : κ} {v : α} {l : List (κ × α)}
    (h : p ∈ alSet k v l) : p ∈ l ∨ p = (k, v) := by
  induction l with
  | nil =>
    simp only [alSet, List.mem_singleton] at h
    exact Or.inr h
  | cons q rest ih =>
    by_cases h2 : k = q.1
    · simp only [alSet, if_pos h2, List.mem_cons] at h
      rcases h with h | h
      · exact Or.inr h
      · exact Or.inl (List.mem_cons_of_mem _ h)
    · simp only [alSet, if_neg h2, List.mem_cons] at h
      rcases h with h | h
      · exact Or.inl (h ▸ List.mem_cons_self _ _)
      · rcases ih h with h3 | h3
        · exact Or.inl (List.mem_cons_of_mem _ h3)
        · exact Or.inr h3

theorem mem_alErase {p : κ × α} {k : κ} {l : List (κ × α)}
    (h : p ∈ alErase k l) : p ∈ l := by
  induction l with
  | nil => simp [alErase] at h
  | cons q rest ih =>
    by_cases h2 : q.1 = k
    · simp only [alErase, if_pos h2] at h
      exact List.mem_cons_of_mem _ (ih h)
    · simp only [alErase, if_neg h2, List.mem_cons] at h
      rcases h with h | h
      · exact h ▸ List.mem_cons_self _ _
      · exact List.mem_cons_of_mem _ (ih h)

theorem alLookup_mem {k : κ} {v : α} {l : List (κ × α)}
    (h : alLookup k l = some v) : (k, v) ∈ l := by
  induction l with
  | nil => simp [alLookup] at h
  | cons p rest ih =>
    by_cases h2 : k = p.1
    · simp only [alLookup, if_pos h2, Option.some.injEq] at h
      obtain ⟨a, b⟩ := p
      subst h
      subst h2
      exact List.mem_cons_self _ _
    · simp only [alLookup, if_neg h2] at h
      exact List.mem_cons_of_mem _ (ih h)

theorem alLookup_isSome_set {k k2 : κ} (v : α) (l : List (κ × α))
    (h : (alLookup k l).isSome = true) :
    (alLookup k (alSet k2 v l)).isSome = true := by
  by_cases h2 : k = k2
  · subst h2; simp [alLookup_set_self]
  · rwa [alLookup_set_ne h2]

theorem keyCount_cons (k : κ) (p : κ × α) (rest : List (κ × α)) :
    keyCount k (p :: rest) = (if p.1 = k then 1 else 0) + keyCount k rest := by
  by_cases h : p.1 = k <;>
    simp [keyCount, List.filter_cons, h, Nat.add_comm]

theorem keyCount_eq_zero {k : κ} {l : List (κ × α)}
    (h : alLookup k l = none) : keyCount k l = 0 := by
  induction l with
  | nil => rfl
  | cons p rest ih =>
    by_cases h2 : k = p.1
    · simp [alLookup, h2] at h
    · simp only [alLookup, if_neg h2] at h
      rw [keyCount_cons]
      simp [Ne.symm h2, ih h]

theorem keyCount_set_absent {k : κ} {l : List (κ × α)} (v : α)
    (h : alLookup k l = none) : keyCount k (alSet k v l) = 1 := by
  induction l with
  | nil => simp [alSet, keyCount]
  | cons p rest ih =>
    by_cases h2 : k = p.1
    · simp [alLookup, h2] at h
    · simp only [alLookup, if_neg h2] at h
      rw [alSet, if_neg h2, keyCount_cons]
      simp [Ne.symm h2, ih h]

theorem keyCount_set_present {k : κ} {l : List (κ × α)} {w : α} (v : α)
    (h : alLookup k l = some w) : keyCount k (alSet k v l) = keyCount k l := by
  induction l with
  | nil => simp [alLookup] at h
  | cons p rest ih =>
    by_cases h2 : k = p.1
    · rw [alSet, if_pos h2, keyCount_cons, keyCount_cons]
      simp [h2]
    · simp only [alLookup, if_neg h2] at h
      rw [alSet, if_neg h2, keyCount_cons, keyCount_cons, ih h]

theorem nodup_keyCount {l : List (κ × α)} (h : (alKeys l).Nodup) (k : κ) :
    keyCount k l ≤ 1 := by
  induction l with
  | nil => simp [keyCount]
  | cons p rest ih =>
    rw [alKeys, List.map_cons, List.nodup_cons] at h
    rw [keyCount_cons]
    by_cases h2 : p.1 = k
    · subst h2
      have hnone : alLookup p.1 rest = none := by
        cases hl : alLookup p.1 rest with
        | none => rfl
        | some w =>
          exact absurd (List.mem_map_of_mem Prod.fst (alLookup_mem hl)) h.1
      simp [keyCount_eq_zero hnone]
    · simpa [h2] using ih h.2

end AssocLemmas

theorem closeFd_lookup_self (fd : Nat) (fds : List (Nat × Fd)) :
    alLookup fd (closeFd fd fds)
      = (alLookup fd fds).map (fun f => { f with isOpen := false }) := by
  cases h : alLookup fd fds with
  | none => simp [closeFd, h]
  | some f => simp [closeFd, h, alLookup_set_self]

theorem closeFd_lookup_ne {fd fd2 : Nat} (h : fd ≠ fd2) (fds : List (Nat × Fd)) :
    alLookup fd (closeFd fd2 fds) = alLookup fd fds := by
  cases h2 : alLookup fd2 fds with
  | none => simp [closeFd, h2]
  | some f => simp [closeFd, h2, alLookup_set_ne h]

theorem start_check_none {s : SupState} {ref : Nat} {bot : BotInfo}
    (h1 : alLookup ref s.heap = some bot)
    (h2 : alLookup bot.id s.processes = none) :
    start_check s ref = (s, false) := by
  simp [start_check, h1, h2]

theorem start_check_live {s : SupState} {ref : Nat} {bot : BotInfo} {pr : RunRec}
    (h1 : alLookup ref s.heap = some bot)
    (h2 : alLookup bot.id s.processes = some pr)
    (h3 : pollProc s.procs pr.pid = none) :
    start_check s ref = (s, true) := by
  simp [start_check, h1, h2, h3]

theorem start_check_heap (s : SupState) (ref : Nat) :
    (start_check s ref).1.heap = s.heap := by
  unfold start_check
  split
  · rfl
  · split
    · rfl
    · split
      · rfl
      · rfl

/-- The failure path of `start_bot` in full: with no registry entry for the
id and a failing `Popen`, the call returns `False` having opened one fresh
log handle and appended the banner, and having changed nothing else. -/
theorem start_fail_spec {s : SupState} {ref : Nat} {bot : BotInfo}
    (h1 : alLookup ref s.heap = some bot)
    (h2 : alLookup bot.id s.processes = none) :
    start_bot s ref false =
      ({ s with
          fds := alSet s.nextFd ({ path := bot.logFile, isOpen := true }) s.fds,
          nextFd := s.nextFd + 1,
          logContents := appendLog bot.logFile (bannerLines s.clock bot) s.logContents },
       false) := by
  rw [start_bot, start_check_none h1 h2]
  simp [start_launch, install_dependencies, h1]

theorem stopped_ne_running : ("stopped" : String) ≠ "running" := by decide

/-- `stop_bot` never makes a descriptor `running`: a descriptor that reads
`running` afterwards was exactly that object before. -/
theorem stop_heap_run {s : SupState} {botId : String} {g : Option Int}
    {ref : Nat} {b : BotInfo}
    (h : alLookup ref (stop_bot s botId g).1.heap = some b)
    (hrun : b.status = "running") :
    alLookup ref s.heap = some b := by
  rcases hp : alLookup botId s.processes with _ | pr
  · simpa [stop_bot, hp] using h
  · rcases hb : alLookup pr.botRef s.heap with _ | bot
    · simpa [stop_bot, hp, hb] using h
    · by_cases href : ref = pr.botRef
      · subst href
        rw [stop_bot] at h
        simp only [hp, hb] at h
        rw [alLookup_set_self] at h
        rcases h with ⟨h⟩
        simp at hrun
      · rw [stop_bot] at h
        simp only [hp, hb] at h
        rwa [alLookup_set_ne href] at h

/-- `monitor_bot_exit` never makes a descriptor `running`. -/
theorem monitor_heap_run {s : SupState} {botId : String} {c : Int}
    {ref : Nat} {b : BotInfo}
    (h : alLookup ref (monitor_bot_exit s botId c).heap = some b)
    (hrun : b.status = "running") :
    alLookup ref s.heap = some b := by
  rcases hp : alLookup botId s.processes with _ | pr
  · simpa [monitor_bot_exit, hp] using h
  · rcases hb : alLookup pr.botRef s.heap with _ | bot
    · simpa [monitor_bot_exit, hp, hb] using h
    · by_cases href : ref = pr.botRef
      · subst href
        rw [monitor_bot_exit] at h
        simp only [hp, hb] at h
        rw [alLookup_set_self] at h
        rcases h with ⟨h⟩
        simp at hrun
      · rw [monitor_bot_exit] at h
        simp only [hp, hb] at h
        rwa [alLookup_set_ne href] at h

/-- Neither does the stop-all loop. -/
theorem stop_all_loop_heap_run {ks : List String} {os : List (Option Int)}
    {s : SupState} {ref : Nat} {b : BotInfo}
    (h : alLookup ref (stop_all_loop s ks os).heap = some b)
    (hrun : b.status = "running") :
    alLookup ref s.heap = some b := by
  induction ks generalizing s os with
  | nil => simpa [stop_all_loop] using h
  | cons k ks ih =>
    rw [stop_all_loop] at h
    exact stop_heap_run (ih h) hrun

/-- Rescanning only creates descriptors whose status is `stopped`. -/
theorem scan_loop_heap_run {raws : List RawBot} {s : SupState}
    {ref : Nat} {b : BotInfo}
    (h : alLookup ref (scan_loop s raws).heap = some b)
    (hrun : b.status = "running") :
    alLookup ref s.heap = some b := by
  induction raws generalizing s with
  | nil => simpa [scan_loop] using h
  | cons r rs ih =>
    rw [scan_loop] at h
    have h2 := ih h
    by_cases href : ref = s.nextRef
    · subst href
      rw [alLookup_set_self] at h2
      rcases h2 with ⟨h2⟩
      simp [mkBotInfo] at hrun
    · rwa [alLookup_set_ne href] at h2

/-- A descriptor `i` holding file-handle state `f` that no registry entry
references and that lies below the allocation counter: such a handle is
orphaned, and no operation of the system ever touches it again. -/
def fdFrozen (i : Nat) (f : Fd) (s : SupState) : Prop :=
  alLookup i s.fds = some f ∧ (∀ p ∈ s.processes, p.2.fd ≠ i) ∧ i < s.nextFd

theorem fdFrozen_start_check {i : Nat} {f : Fd} {s : SupState} {ref : Nat}
    (h : fdFrozen i f s) : fdFrozen i f (start_check s ref).1 := by
  obtain ⟨hf, hpr, hlt⟩ := h
  rcases hb : alLookup ref s.heap with _ | bot
  · rw [start_check]; simp only [hb]; exact ⟨hf, hpr, hlt⟩
  · rcases hp : alLookup bot.id s.processes with _ | pr
    · rw [start_check]; simp only [hb, hp]; exact ⟨hf, hpr, hlt⟩
    · rcases hpoll : pollProc s.procs pr.pid with _ | c
      · rw [start_check]; simp only [hb, hp, hpoll]; exact ⟨hf, hpr, hlt⟩
      · rw [start_check]; simp only [hb, hp, hpoll]
        refine ⟨hf, ?_, hlt⟩
        intro p hmem
        rcases mem_alSet hmem with hmem | heq
        · exact hpr p hmem
        · subst heq
          exact hpr (bot.id, pr) (alLookup_mem hp)

theorem fdFrozen_start_launch {i : Nat} {f : Fd} {s : SupState} {ref : Nat}
    {ok : Bool} (h : fdFrozen i f s) : fdFrozen i f (start_launch s ref ok).1 := by
  obtain ⟨hf, hpr, hlt⟩ := h
  have hne : i ≠ s.nextFd := Nat.ne_of_lt hlt
  rcases hb : alLookup ref s.heap with _ | bot
  · rw [start_launch]; simp only [hb]; exact ⟨hf, hpr, hlt⟩
  · rw [start_launch]
    simp only [hb, install_dependencies]
    split
    · refine ⟨by rwa [alLookup_set_ne hne], ?_, Nat.lt_succ_of_lt hlt⟩
      intro p hmem
      rcases mem_alSet hmem with hmem | heq
      · exact hpr p hmem
      · subst heq
        exact Ne.symm hne
    · exact ⟨by rwa [alLookup_set_ne hne], hpr, Nat.lt_succ_of_lt hlt⟩

theorem fdFrozen_start_bot {i : Nat} {f : Fd} {s : SupState} {ref : Nat}
    {ok : Bool} (h : fdFrozen i f s) : fdFrozen i f (start_bot s ref ok).1 := by
  rw [start_bot]
  rcases hc : start_check s ref with ⟨s1, b⟩
  have h1 : fdFrozen i f s1 := by
    have := @fdFrozen_start_check i f s ref h
    rwa [hc] at this
  cases b
  · exact fdFrozen_start_launch h1
  · exact h1

theorem fdFrozen_stop {i : Nat} {f : Fd} {s : SupState} {botId : String}
    {g : Option Int} (h : fdFrozen i f s) : fdFrozen i f (stop_bot s botId g).1 := by
  obtain ⟨hf, hpr, hlt⟩ := h
  rcases hp : alLookup botId s.processes with _ | pr
  · rw [stop_bot]; simp only [hp]; exact ⟨hf, hpr, hlt⟩
  · have hfd : pr.fd ≠ i := hpr (botId, pr) (alLookup_mem hp)
    rw [stop_bot]
    simp only [hp]
    refine ⟨by rwa [closeFd_lookup_ne (Ne.symm hfd)], ?_, hlt⟩
    intro p hmem
    exact hpr p (mem_alErase hmem)

theorem fdFrozen_monitor {i : Nat} {f : Fd} {s : SupState} {botId : String}
    {c : Int} (h : fdFrozen i f s) : fdFrozen i f (monitor_bot_exit s botId c) := by
  obtain ⟨hf, hpr, hlt⟩ := h
  rcases hp : alLookup botId s.processes with _ | pr
  · rw [monitor_bot_exit]; simp only [hp]; exact ⟨hf, hpr, hlt⟩
  · have hfd : pr.fd ≠ i := hpr (botId, pr) (alLookup_mem hp)
    rw [monitor_bot_exit]
    simp only [hp]
    refine ⟨by rwa [closeFd_lookup_ne (Ne.symm hfd)], ?_, hlt⟩
    intro p hmem
    exact hpr p (mem_alErase hmem)

theorem fdFrozen_start_all_loop {i : Nat} {f : Fd} {refs : List Nat}
    {os : List Bool} {s : SupState} (h : fdFrozen i f s) :
    fdFrozen i f (start_all_loop s refs os).1 := by
  induction refs generalizing s os with
  | nil => simpa [start_all_loop] using h
  | cons r rs ih =>
    rw [start_all_loop]
    exact ih (fdFrozen_start_bot h)

theorem fdFrozen_stop_all_loop {i : Nat} {f : Fd} {ks : List String}
    {os : List (Option Int)} {s : SupState} (h : fdFrozen i f s) :
    fdFrozen i f (stop_all_loop s ks os) := by
  induction ks generalizing s os with
  | nil => simpa [stop_all_loop] using h
  | cons k ks ih =>
    rw [stop_all_loop]
    exact ih (fdFrozen_stop h)

theorem fdFrozen_scan_loop {i : Nat} {f : Fd} {raws : List RawBot}
    {s : SupState} (h : fdFrozen i f s) : fdFrozen i f (scan_loop s raws) := by
  induction raws generalizing s with
  | nil => simpa [scan_loop] using h
  | cons r rs ih =>
    rw [scan_loop]
    exact ih ⟨h.1, h.2.1, h.2.2⟩

theorem fdFrozen_applyOp {i : Nat} {f : Fd} {s : SupState} {op : Op}
    (h : fdFrozen i f s) : fdFrozen i f (applyOp s op) := by
  cases op with
  | start ref ok => exact fdFrozen_start_bot h
  | apiStart botId ok =>
    rw [applyOp, api_start_bot]
    rcases hfind : findBotRef s botId with _ | ref
    · simp only [hfind]; exact h
    · simp only [hfind]
      rcases hb : alLookup ref s.heap with _ | bot
      · simp only [hb]; exact h
      · simp only [hb]; exact fdFrozen_start_bot h
  | stop botId g => exact fdFrozen_stop h
  | startAll os => exact fdFrozen_start_all_loop h
  | stopAll os => exact fdFrozen_stop_all_loop h
  | monitor botId pid =>
    rw [applyOp]
    rcases pollProc s.procs pid with _ | c
    · exact h
    · exact fdFrozen_monitor h
  | rescan raws => exact fdFrozen_scan_loop ⟨h.1, h.2.1, h.2.2⟩
  | status => exact h
  | procExit pid code =>
    rw [applyOp]
    rcases alLookup pid s.procs with _ | st
    · exact h
    · cases st
      · exact ⟨h.1, h.2.1, h.2.2⟩
      · exact h

theorem fdFrozen_applyOps {i : Nat} {f : Fd} {s : SupState} {ops : List Op}
    (h : fdFrozen i f s) : fdFrozen i f (applyOps s ops) := by
  induction ops generalizing s with
  | nil => simpa [applyOps] using h
  | cons op ops ih =>
    rw [applyOps, List.foldl_cons]
    exact ih (fdFrozen_applyOp h)

theorem scan_loop_processes (raws : List RawBot) (s : SupState) :
    (scan_loop s raws).processes = s.processes := by
  induction raws generalizing s with
  | nil => rfl
  | cons r rs ih => rw [scan_loop]; exact ih _

theorem scan_loop_len (raws : List RawBot) (s : SupState) :
    (scan_loop s raws).bots.length = s.bots.length + raws.length := by
  induction raws generalizing s with
  | nil => simp [scan_loop]
  | cons r rs ih =>
    rw [scan_loop, ih]
    simp
    omega

theorem scan_loop_lookup_lt {raws : List RawBot} {s : SupState} {k : Nat}
    (h : k < s.nextRef) :
    alLookup k (scan_loop s raws).heap = alLookup k s.heap := by
  induction raws generalizing s with
  | nil => rfl
  | cons r rs ih =>
    rw [scan_loop, ih (Nat.lt_succ_of_lt h)]
    exact alLookup_set_ne (Nat.ne_of_lt h) _ _

/-- Every reference the scan loop adds to `self.bots` points at a freshly
built descriptor: stopped, no pid, no exit code, no start time. -/
theorem scan_loop_mem {raws : List RawBot} {s : SupState} {r : Nat}
    (h : r ∈ (scan_loop s raws).bots) :
    r ∈ s.bots ∨ ∃ b, alLookup r (scan_loop s raws).heap = some b ∧
      b.status = "stopped" ∧ b.pid = none ∧ b.exitCode = none ∧
      b.startTime = none := by
  induction raws generalizing s with
  | nil => exact Or.inl (by simpa [scan_loop] using h)
  | cons r0 rs ih =>
    rw [scan_loop] at h ⊢
    rcases ih h with hmem | hex
    · simp only [List.mem_append, List.mem_singleton] at hmem
      rcases hmem with hmem | heq
      · exact Or.inl hmem
      · subst heq
        refine Or.inr ⟨mkBotInfo s.logsDir r0, ?_, rfl, rfl, rfl, rfl⟩
        rw [scan_loop_lookup_lt (Nat.lt_succ_self _)]
        exact alLookup_set_self _ _ _
    · exact Or.inr hex

theorem start_bot_heap_isSome {s : SupState} {ref r : Nat} {ok : Bool}
    (h : (alLookup r s.heap).isSome = true) :
    (alLookup r (start_bot s ref ok).1.heap).isSome = true := by
  rw [start_bot]
  rcases hc : start_check s ref with ⟨s1, b⟩
  have hh : s1.heap = s.heap := by
    have h2 := start_check_heap s ref
    rw [hc] at h2
    exact h2
  cases b
  · rcases hb : alLookup ref s1.heap with _ | bot
    · simp only [start_launch, hb]; rwa [hh]
    · simp only [start_launch, hb, install_dependencies]
      split
      · exact alLookup_isSome_set _ _ (by rwa [hh])
      · rwa [hh]
  · rwa [hh]

theorem start_bot_true {s : SupState} {ref : Nat}
    (h : (alLookup ref s.heap).isSome = true) :
    (start_bot s ref true).2 = true := by
  rw [start_bot]
  rcases hc : start_check s ref with ⟨s1, b⟩
  have hh : s1.heap = s.heap := by
    have h2 := start_check_heap s ref
    rw [hc] at h2
    exact h2
  cases b
  · rcases hb : alLookup ref s1.heap with _ | bot
    · rw [hh] at hb
      rw [hb] at h
      simp at h
    · simp [start_launch, hb, install_dependencies]
  · rfl

theorem start_all_loop_le (refs : List Nat) (os : List Bool) (s : SupState) :
    (start_all_loop s refs os).2 ≤ refs.length := by
  induction refs generalizing s os with
  | nil => simp [start_all_loop]
  | cons r rs ih =>
    rw [start_all_loop]
    simp only [List.length_cons]
    split
    · exact Nat.succ_le_succ (ih _ _)
    · exact Nat.le_trans (ih _ _) (Nat.le_succ _)

theorem start_all_loop_all_true {refs : List Nat} {os : List Bool}
    {s : SupState}
    (hos : ∀ b ∈ os, b = true)
    (hrefs : ∀ r ∈ refs, (alLookup r s.heap).isSome = true) :
    (start_all_loop s refs os).2 = refs.length := by
  induction refs generalizing s os with
  | nil => simp [start_all_loop]
  | cons r rs ih =>
    rw [start_all_loop]
    have hhead : os.headD true = true := by
      cases os with
      | nil => rfl
      | cons b bs => exact hos b (List.mem_cons_self _ _)
    have h2 : (start_bot s r (os.headD true)).2 = true := by
      rw [hhead]
      exact start_bot_true (hrefs r (List.mem_cons_self _ _))
    have htail : ∀ b ∈ os.tail, b = true :=
      fun b hb => hos b (List.mem_of_mem_tail hb)
    have hrefs2 : ∀ r2 ∈ rs,
        (alLookup r2 (start_bot s r (os.headD true)).1.heap).isSome = true :=
      fun r2 hr2 => start_bot_heap_isSome (hrefs r2 (List.mem_cons_of_mem _ hr2))
    simp only [h2, if_true, ih htail hrefs2, List.length_cons]

/-- The success path of `start_launch` in full. -/
theorem start_launch_ok_spec {s : SupState} {ref : Nat} {bot : BotInfo}
    (h1 : alLookup ref s.heap = some bot) :
    start_launch s ref true =
      ({ s with
          heap := alSet ref ({ bot with
            pid := some s.nextPid,
            status := "running",
            startTime := some s.clock,
            exitCode := none,
            logFd := some s.nextFd }) s.heap,
          processes := alSet bot.id
            ({ pid := s.nextPid, returncode := none, botRef := ref, fd := s.nextFd })
            s.processes,
          procs := alSet s.nextPid ProcState.running s.procs,
          fds := alSet s.nextFd ({ path := bot.logFile, isOpen := true }) s.fds,
          logContents := appendLog bot.logFile (bannerLines s.clock bot) s.logContents,
          watchers := s.watchers ++ [(bot.id, s.nextPid)],
          nextPid := s.nextPid + 1,
          nextFd := s.nextFd + 1 }, true) := by
  simp [start_launch, install_dependencies, h1]

/-- `stop_bot` on a process that had already exited with code `c`. -/
theorem stop_spec_dead {s : SupState} {botId : String} {pr : RunRec} {c : Int}
    (g : Option Int)
    (hp : alLookup botId s.processes = some pr)
    (hpoll : pollProc s.procs pr.pid = some c) :
    stop_bot s botId g =
      ({ s with
          procs := alSet pr.pid (ProcState.exited c) s.procs,
          heap :=
            match alLookup pr.botRef s.heap with
            | some bot =>
              alSet pr.botRef ({ bot with status := "stopped", exitCode := some c }) s.heap
            | none => s.heap,
          fds := closeFd pr.fd s.fds,
          processes := alErase botId s.processes }, true) := by
  simp [stop_bot, hp, hpoll]

/-- `stop_bot` when the process exits with code `c` within the grace
period. -/
theorem stop_spec_grace {s : SupState} {botId : String} {pr : RunRec} {c : Int}
    (hp : alLookup botId s.processes = some pr)
    (hpoll : pollProc s.procs pr.pid = none) :
    stop_bot s botId (some c) =
      ({ s with
          procs := alSet pr.pid (ProcState.exited c) s.procs,
          heap :=
            match alLookup pr.botRef s.heap with
            | some bot =>
              alSet pr.botRef ({ bot with status := "stopped", exitCode := some c }) s.heap
            | none => s.heap,
          fds := closeFd pr.fd s.fds,
          processes := alErase botId s.processes }, true) := by
  simp [stop_bot, hp, hpoll]

/-- `stop_bot` when the grace period expires: the process is killed and
the descriptor receives the handle's stale cached `returncode`. -/
theorem stop_spec_forced {s : SupState} {botId : String} {pr : RunRec}
    (hp : alLookup botId s.processes = some pr)
    (hpoll : pollProc s.procs pr.pid = none) :
    stop_bot s botId none =
      ({ s with
          procs := alSet pr.pid (ProcState.exited (-9)) s.procs,
          heap :=
            match alLookup pr.botRef s.heap with
            | some bot =>
              alSet pr.botRef ({ bot with status := "stopped", exitCode := pr.returncode }) s.heap
            | none => s.heap,
          fds := closeFd pr.fd s.fds,
          processes := alErase botId s.processes }, true) := by
  simp [stop_bot, hp, hpoll]

/-- A unit directory fixture used by the concrete scenarios below. -/
def alphaRaw : RawBot :=
  { folder := "bots/alpha", folderName := "alpha", botType := "generic",
    fileSize := 10, lines := 2, hasRequirements := false, tstamp := 100 }

/-- The same folder rediscovered at a later scan timestamp. -/
def alphaRaw2 : RawBot := { alphaRaw with tstamp := 200 }

/-- A second unit directory fixture. -/
def betaRaw : RawBot :=
  { folder := "bots/beta", folderName := "beta", botType := "tcp",
    fileSize := 20, lines := 3, hasRequirements := true, tstamp := 100 }

/-- The descriptor discovery builds for `alphaRaw`. -/
def alphaBot : BotInfo := mkBotInfo "logs" alphaRaw

/-- The descriptor discovery builds for `betaRaw`. -/
def betaBot : BotInfo := mkBotInfo "logs" betaRaw

/-- A supervisor that has scanned one unit and launched nothing. -/
def baseState : SupState :=
  { heap := [(0, alphaBot)], bots := [0], processes := [], procs := [],
    fds := [], logContents := [], watchers := [], logsDir := "logs",
    clock := 50, nextPid := 1, nextFd := 0, nextRef := 1 }

/-- The same supervisor after a successful `start_bot` of the unit. -/
def runningState : SupState := (start_bot baseState 0 true).1

/-- The descriptor object as it reads while the unit runs. -/
def runningBot : BotInfo :=
  { alphaBot with
    pid := some 1, status := "running", startTime := some 50, logFd := some 0 }

/-- `runningState` after the OS process exited with code 0 but before the
watcher has reconciled. -/
def exitedState : SupState := applyOp runningState (Op.procExit 1 0)

/-- `exitedState` after the watcher thread has run. -/
def reconciledState : SupState := monitor_bot_exit exitedState "alpha_100" 0

/-- A supervisor that has scanned two units and launched nothing. -/
def twoBotState : SupState :=
  { baseState with
    heap := [(0, alphaBot), (1, betaBot)], bots := [0, 1], nextRef := 2 }

/-- C1: if a unit id has a live RunRecord in the registry (its OS process
polls as not yet exited), `start_bot` returns success immediately with the
state — registry, OS table, pid counter — completely unchanged, so no
second process is launched; and since the registry is keyed by unit id, it
holds at most one RunRecord per id. -/
theorem start_idempotent_on_live {s : SupState} {ref : Nat} {bot : BotInfo}
    {pr : RunRec} (ok : Bool)
    (h1 : alLookup ref s.heap = some bot)
    (h2 : alLookup bot.id s.processes = some pr)
    (h3 : pollProc s.procs pr.pid = none) :
    start_bot s ref ok = (s, true) ∧
    ((alKeys s.processes).Nodup →
      keyCount bot.id (start_bot s ref ok).1.processes ≤ 1) := by
  have he : start_bot s ref ok = (s, true) := by
    rw [start_bot, start_check_live h1 h2 h3]
  refine ⟨he, fun hn => ?_⟩
  rw [he]
  exact nodup_keyCount hn _

/-- Witness for C1 at a concrete running supervisor. -/
theorem start_idempotent_on_live_witness :
    start_bot runningState 0 true = (runningState, true) :=
  (@start_idempotent_on_live runningState 0 runningBot
    ({ pid := 1, returncode := none, botRef := 0, fd := 0 }) true rfl rfl rfl).1

/-- C5: no event other than an explicit start command (`start_bot`, the
start route, or start-all) ever turns a descriptor's status to `running`:
if a descriptor reads `running` after any other event, it already read
`running` before it. -/
theorem no_transition_to_running {s : SupState} {op : Op} {ref : Nat}
    {b : BotInfo}
    (hop : isStartOp op = false)
    (h : alLookup ref (applyOp s op).heap = some b)
    (hrun : b.status = "running") :
    (alLookup ref s.heap).any (fun b0 => decide (b0.status = "running")) = true := by
  cases op with
  | start ref2 ok => simp [isStartOp] at hop
  | apiStart botId ok => simp [isStartOp] at hop
  | startAll os => simp [isStartOp] at hop
  | stop botId g =>
    rw [applyOp] at h
    have h2 := stop_heap_run h hrun
    simp [h2, hrun]
  | stopAll os =>
    rw [applyOp, stop_all_bots] at h
    have h2 := stop_all_loop_heap_run h hrun
    simp [h2, hrun]
  | monitor botId pid =>
    rw [applyOp] at h
    rcases hpoll : pollProc s.procs pid with _ | c
    · rw [hpoll] at h
      simp at h
      simp [h, hrun]
    · rw [hpoll] at h
      simp only at h
      have h2 := monitor_heap_run h hrun
      simp [h2, hrun]
  | rescan raws =>
    rw [applyOp] at h
    have h2 := @scan_loop_heap_run raws ({ s with bots := [] }) ref b h hrun
    simp only at h2
    simp [h2, hrun]
  | status =>
    rw [applyOp] at h
    simp [h, hrun]
  | procExit pid code =>
    rw [applyOp] at h
    rcases hl : alLookup pid s.procs with _ | st
    · rw [hl] at h
      simp at h
      simp [h, hrun]
    · rw [hl] at h
      cases st with
      | running =>
        simp only at h
        simp [h, hrun]
      | exited c =>
        simp only at h
        simp [h, hrun]

/-- Witness for C5: a read-only event leaves a running descriptor
running. -/
theorem no_transition_to_running_witness :
    (alLookup 0 runningState.heap).any
      (fun b0 => decide (b0.status = "running")) = true :=
  @no_transition_to_running runningState Op.status 0 runningBot rfl rfl rfl

/-- C6: `stop_bot` on an id with no registry entry returns `False` and is
a complete no-op: the returned state is the input state, so registry,
descriptors, OS processes and log files are untouched, and no exception
escapes. -/
theorem stop_missing_is_noop {s : SupState} {botId : String} (g : Option Int)
    (h : alLookup botId s.processes = none) :
    stop_bot s botId g = (s, false) := by
  simp [stop_bot, h]

/-- Witness for C6 on a never-started unit. -/
theorem stop_missing_is_noop_witness :
    stop_bot baseState "alpha_100" none = (baseState, false) :=
  stop_missing_is_noop none rfl

/-- C7: when the OS launch fails, `start_bot` returns `False`, the
registry and the descriptor heap are unchanged — in particular a
descriptor whose status was `stopped` still reads `stopped`. -/
theorem start_failure_keeps_stopped {s : SupState} {ref : Nat} {bot : BotInfo}
    (h1 : alLookup ref s.heap = some bot)
    (h2 : alLookup bot.id s.processes = none) :
    (start_bot s ref false).2 = false ∧
    (start_bot s ref false).1.processes = s.processes ∧
    (start_bot s ref false).1.heap = s.heap ∧
    (bot.status = "stopped" →
      (alLookup ref (start_bot s ref false).1.heap).map BotInfo.status
        = some "stopped") := by
  rw [start_fail_spec h1 h2]
  refine ⟨rfl, rfl, rfl, fun hst => ?_⟩
  simp [h1, hst]

/-- Witness for C7 at a concrete stopped unit. -/
theorem start_failure_keeps_stopped_witness :
    (start_bot baseState 0 false).2 = false ∧
    (alLookup 0 (start_bot baseState 0 false).1.heap).map BotInfo.status
      = some "stopped" :=
  ⟨(@start_failure_keeps_stopped baseState 0 alphaBot rfl rfl).1,
   (@start_failure_keeps_stopped baseState 0 alphaBot rfl rfl).2.2.2 rfl⟩

/-- C2 (corrected): when the watcher fires and the registry entry is still
present, it records the exit code on the descriptor, closes the log
handle and removes the entry; a watcher whose entry was already removed
does nothing at all.  `get_status` afterwards reports the unit stopped and
not running — but with no exit code: the row only carries an exit code in
the window where the process has died and the watcher has not yet
reconciled. -/
theorem watcher_reconciliation {s : SupState} {botId : String} (code : Int) :
    (∀ pr bot, alLookup botId s.processes = some pr →
      alLookup pr.botRef s.heap = some bot → bot.id = botId →
      alLookup pr.botRef (monitor_bot_exit s botId code).heap
        = some ({ bot with status := "stopped", exitCode := some code }) ∧
      alLookup botId (monitor_bot_exit s botId code).processes = none ∧
      alLookup pr.fd (monitor_bot_exit s botId code).fds
        = (alLookup pr.fd s.fds).map (fun f => { f with isOpen := false }) ∧
      (statusOf (monitor_bot_exit s botId code)
        ({ bot with status := "stopped", exitCode := some code })).status
          = "stopped" ∧
      (statusOf (monitor_bot_exit s botId code)
        ({ bot with status := "stopped", exitCode := some code })).running
          = false ∧
      (statusOf (monitor_bot_exit s botId code)
        ({ bot with status := "stopped", exitCode := some code })).exitCode
          = none) ∧
    (alLookup botId s.processes = none → monitor_bot_exit s botId code = s) := by
  constructor
  · intro pr bot hp hb hid
    refine ⟨?_, ?_, ?_, ?_, ?_, ?_⟩
    · simp [monitor_bot_exit, hp, hb, alLookup_set_self]
    · simp [monitor_bot_exit, hp, hb, alLookup_erase_self]
    · simp [monitor_bot_exit, hp, hb, closeFd_lookup_self]
    · simp [statusOf, monitor_bot_exit, hp, hb, hid, alLookup_erase_self]
    · simp [statusOf, monitor_bot_exit, hp, hb, hid, alLookup_erase_self]
    · simp [statusOf, monitor_bot_exit, hp, hb, hid, alLookup_erase_self]
  · intro h
    simp [monitor_bot_exit, h]

/-- Counterexample for C2 as stated: after the process exits with code 0
and the watcher reconciles, the exit code is recorded on the descriptor
and the registry is empty, but the `get_status` row shows `stopped` with
no exit code at all — the claimed "status() reports Stopped with the
matching exit code" fails. -/
theorem watcher_exit_code_not_reported :
    (alLookup 0 reconciledState.heap).map BotInfo.exitCode = some (some 0) ∧
    reconciledState.processes = [] ∧
    (get_status reconciledState).map (fun e => (e.status, e.running, e.exitCode))
      = [("stopped", false, (none : Option Int))] :=
  ⟨by decide, by decide, by decide⟩

/-- Witness for the amended C2 at a concrete exited process. -/
theorem watcher_reconciliation_witness :
    alLookup "alpha_100" (monitor_bot_exit exitedState "alpha_100" 0).processes
      = none :=
  ((@watcher_reconciliation exitedState "alpha_100" 0).1
    ({ pid := 1, returncode := none, botRef := 0, fd := 0 }) runningBot
    rfl rfl rfl).2.1

/-- C3 (corrected): `stop_bot` on a registered unit returns success in the
graceful and in the forced path, removes the record and closes the log
handle in both; but only the graceful path records the process's exit
code — the forced path copies the handle's stale cached `returncode`
(read immediately after `kill()`, without waiting), not the final exit
code. -/
theorem stop_both_paths {s : SupState} {botId : String} {pr : RunRec}
    {bot : BotInfo} (g : Option Int)
    (hp : alLookup botId s.processes = some pr)
    (hb : alLookup pr.botRef s.heap = some bot) :
    (stop_bot s botId g).2 = true ∧
    alLookup botId (stop_bot s botId g).1.processes = none ∧
    alLookup pr.fd (stop_bot s botId g).1.fds
      = (alLookup pr.fd s.fds).map (fun f => { f with isOpen := false }) ∧
    (∀ c, pollProc s.procs pr.pid = some c →
      alLookup pr.botRef (stop_bot s botId g).1.heap
        = some ({ bot with status := "stopped", exitCode := some c })) ∧
    (∀ c, pollProc s.procs pr.pid = none → g = some c →
      alLookup pr.botRef (stop_bot s botId g).1.heap
        = some ({ bot with status := "stopped", exitCode := some c })) ∧
    (pollProc s.procs pr.pid = none → g = none →
      alLookup pr.botRef (stop_bot s botId g).1.heap
        = some ({ bot with status := "stopped", exitCode := pr.returncode })) := by
  rcases hpoll : pollProc s.procs pr.pid with _ | c0
  · cases g with
    | none =>
      rw [stop_spec_forced hp hpoll]
      refine ⟨rfl, ?_, ?_, ?_, ?_, ?_⟩
      · simp [alLookup_erase_self]
      · simp [closeFd_lookup_self]
      · intro c hc
        cases hc
      · intro c _ hg
        cases hg
      · intro _ _
        simp [hb, alLookup_set_self]
    | some c1 =>
      rw [stop_spec_grace hp hpoll]
      refine ⟨rfl, ?_, ?_, ?_, ?_, ?_⟩
      · simp [alLookup_erase_self]
      · simp [closeFd_lookup_self]
      · intro c hc
        cases hc
      · intro c _ hg
        injection hg with hg2
        subst hg2
        simp [hb, alLookup_set_self]
      · intro _ hg
        cases hg
  · rw [stop_spec_dead g hp hpoll]
    refine ⟨rfl, ?_, ?_, ?_, ?_, ?_⟩
    · simp [alLookup_erase_self]
    · simp [closeFd_lookup_self]
    · intro c hc
      injection hc with hc2
      subst hc2
      simp [hb, alLookup_set_self]
    · intro c hn
      cases hn
    · intro hn
      cases hn

/-- Counterexample for C3 as stated: force-stopping a running unit (the
grace period expires) returns success and empties the registry, and the
OS records the kill, but the descriptor's exit-code field is `None` — the
process's final exit code is not recorded in the forced path. -/
theorem stop_forced_loses_exit_code :
    (stop_bot runningState "alpha_100" none).2 = true ∧
    (alLookup 0 (stop_bot runningState "alpha_100" none).1.heap).map
      BotInfo.exitCode = some (none : Option Int) ∧
    pollProc (stop_bot runningState "alpha_100" none).1.procs 1 = some (-9) ∧
    (stop_bot runningState "alpha_100" none).1.processes = [] :=
  ⟨by decide, by decide, by decide, by decide⟩

/-- Witness for the amended C3: a graceful stop of a concrete running unit
records exit code 0 on the descriptor. -/
theorem stop_both_paths_witness :
    (stop_bot runningState "alpha_100" (some 0)).2 = true ∧
    alLookup 0 (stop_bot runningState "alpha_100" (some 0)).1.heap
      = some ({ runningBot with status := "stopped", exitCode := some 0 }) :=
  ⟨(@stop_both_paths runningState "alpha_100"
      ({ pid := 1, returncode := none, botRef := 0, fd := 0 }) runningBot
      (some 0) rfl rfl).1,
   (@stop_both_paths runningState "alpha_100"
      ({ pid := 1, returncode := none, botRef := 0, fd := 0 }) runningBot
      (some 0) rfl rfl).2.2.2.2.1 0 rfl rfl⟩

/-- C10: a `start_bot` whose launch fails after the log file was opened
has already appended the banner (separator, timestamp, command line) to
the unit's log file, and the freshly opened handle is orphaned: it stays
open after every possible sequence of further events — no failed start is
side-effect-free with respect to the unit's log file. -/
theorem failed_start_leaks_log {s : SupState} {ref : Nat} {bot : BotInfo}
    (h1 : alLookup ref s.heap = some bot)
    (h2 : alLookup bot.id s.processes = none)
    (h3 : ∀ p ∈ s.processes, p.2.fd < s.nextFd) :
    (start_bot s ref false).2 = false ∧
    alLookup bot.logFile (start_bot s ref false).1.logContents
      = some ((alLookup bot.logFile s.logContents).getD []
              ++ bannerLines s.clock bot) ∧
    alLookup s.nextFd (start_bot s ref false).1.fds
      = some ({ path := bot.logFile, isOpen := true }) ∧
    ∀ ops, alLookup s.nextFd (applyOps (start_bot s ref false).1 ops).fds
      = some ({ path := bot.logFile, isOpen := true }) := by
  rw [start_fail_spec h1 h2]
  refine ⟨rfl, ?_, ?_, fun ops => ?_⟩
  · simp [appendLog, alLookup_set_self]
  · simp [alLookup_set_self]
  · refine (fdFrozen_applyOps ⟨?_, ?_, ?_⟩).1
    · exact alLookup_set_self _ _ _
    · intro p hp
      exact Nat.ne_of_lt (h3 p hp)
    · exact Nat.lt_succ_self _

/-- Witness for C10: the orphaned handle of a concrete failed start stays
open across a stop, a watcher wake-up, a rescan, a start-all and a
stop-all. -/
theorem failed_start_leaks_log_witness :
    alLookup 0 (applyOps (start_bot baseState 0 false).1
        [Op.stop "alpha_100" none, Op.monitor "alpha_100" 1,
         Op.rescan [alphaRaw2], Op.startAll [true], Op.stopAll [none],
         Op.status]).fds
      = some ({ path := "logs/alpha.log", isOpen := true }) :=
  (@failed_start_leaks_log baseState 0 alphaBot rfl rfl
    (by intro p hp; simp [baseState] at hp)).2.2.2
    [Op.stop "alpha_100" none, Op.monitor "alpha_100" 1,
     Op.rescan [alphaRaw2], Op.startAll [true], Op.stopAll [none],
     Op.status]

/-- C4 (corrected): the source takes no lock, so two `start_bot` calls
racing on an id can both run the (read-only, here) already-running check
before either launches.  Under that schedule both threads launch: two OS
processes are created and two ExitWatcher threads are spawned.  Only the
registry stays single-valued, because the dict is keyed by id — the
second insert overwrites the first, orphaning the first process. -/
theorem racing_starts_double_launch {s : SupState} {ref : Nat} {bot : BotInfo}
    (h1 : alLookup ref s.heap = some bot)
    (h2 : alLookup bot.id s.processes = none) :
    start_check s ref = (s, false) ∧
    (doubleStart s ref).watchers
      = s.watchers ++ [(bot.id, s.nextPid), (bot.id, s.nextPid + 1)] ∧
    keyCount bot.id (doubleStart s ref).processes = 1 ∧
    alLookup s.nextPid (doubleStart s ref).procs = some ProcState.running ∧
    alLookup (s.nextPid + 1) (doubleStart s ref).procs = some ProcState.running ∧
    (alLookup bot.id (doubleStart s ref).processes).map RunRec.pid
      = some (s.nextPid + 1) := by
  have hc : start_check s ref = (s, false) := start_check_none h1 h2
  have hne : s.nextPid ≠ s.nextPid + 1 := Nat.ne_of_lt (Nat.lt_succ_self _)
  rw [doubleStart, start_launch_ok_spec h1]
  rw [start_launch_ok_spec (alLookup_set_self ref _ s.heap)]
  refine ⟨hc, ?_, ?_, ?_, ?_, ?_⟩
  · simp [List.append_assoc]
  · have hin : alLookup bot.id
        (alSet bot.id
          ({ pid := s.nextPid, returncode := none, botRef := ref, fd := s.nextFd })
          s.processes)
        = some ({ pid := s.nextPid, returncode := none, botRef := ref, fd := s.nextFd }) :=
      alLookup_set_self _ _ _
    rw [keyCount_set_present _ hin, keyCount_set_absent _ h2]
  · rw [alLookup_set_ne hne, alLookup_set_self]
  · rw [alLookup_set_self]
  · rw [alLookup_set_self]
    rfl

/-- Counterexample for C4 as stated: from a concrete supervisor with one
stopped unit, the lock-free interleaving of two racing starts leaves two
spawned watchers and two live OS processes — not the claimed single
RunRecord with a single ExitWatcher. -/
theorem racing_starts_cex :
    (doubleStart baseState 0).watchers.length = 2 ∧
    (doubleStart baseState 0).procs
      = [(1, ProcState.running), (2, ProcState.running)] ∧
    keyCount "alpha_100" (doubleStart baseState 0).processes = 1 :=
  ⟨by decide, by decide, by decide⟩

/-- Witness for the amended C4 at the concrete one-unit supervisor. -/
theorem racing_starts_double_launch_witness :
    (doubleStart baseState 0).watchers
      = [("alpha_100", 1), ("alpha_100", 2)] :=
  (@racing_starts_double_launch baseState 0 alphaBot rfl rfl).2.1

/-- C8 (corrected): `start_all_bots` walks every known descriptor in scan
order without short-circuiting and counts the successful launches — the
count never exceeds the descriptor count and reaches it when every launch
succeeds — but the function only logs the count (returning `None`), and
the start-all route replies with a fixed success message that carries no
`startedCount`. -/
theorem start_all_counts_unreported (s : SupState) (os : List Bool) :
    (api_start_all s os).2
      = ({ success := true, message := "Starting all bots" } : ApiResponse) ∧
    (start_all_bots s os).2 ≤ s.bots.length ∧
    ((∀ b ∈ os, b = true) →
      (∀ r ∈ s.bots, (alLookup r s.heap).isSome = true) →
      (start_all_bots s os).2 = s.bots.length) :=
  ⟨rfl, start_all_loop_le _ _ _,
   fun hos hrefs => start_all_loop_all_true hos hrefs⟩

/-- Counterexample for C8 as stated: over a concrete two-unit supervisor
where the first launch fails and the second succeeds, the loop still
starts the second unit (no short-circuit, internal count 1), but the
start-all reply contains no `startedCount` key at all. -/
theorem start_all_count_missing_cex :
    (api_start_all twoBotState [false, true]).2.startedCount = none ∧
    (start_all_bots twoBotState [false, true]).2 = 1 ∧
    (alLookup "beta_100"
      (start_all_bots twoBotState [false, true]).1.processes).isSome = true ∧
    alLookup "alpha_100"
      (start_all_bots twoBotState [false, true]).1.processes = none :=
  ⟨by decide, by decide, by decide, by decide⟩

/-- Witness for the amended C8: with every launch succeeding, the internal
count equals the number of descriptors. -/
theorem start_all_counts_unreported_witness :
    (start_all_bots twoBotState [true, true]).2 = twoBotState.bots.length :=
  (start_all_counts_unreported twoBotState [true, true]).2.2
    (by decide) (by decide)

/-- C9 (corrected): the rescan route replaces the descriptor list
wholesale — the new descriptors are freshly built (status `stopped`, no
pid, no exit code, no start time) and the reply carries the new unit
count — but the registry is NOT cleared: every RunRecord, with its
processes and watchers, survives the rescan untouched (orphaned from the
new list). -/
theorem rescan_keeps_registry (s : SupState) (raws : List RawBot) :
    (api_rescan s raws).1.processes = s.processes ∧
    (api_rescan s raws).2.count = some ((api_rescan s raws).1.bots.length) ∧
    (api_rescan s raws).1.bots.length = raws.length ∧
    ∀ r ∈ (api_rescan s raws).1.bots,
      (alLookup r (api_rescan s raws).1.heap).any
        (fun b => decide (b.status = "stopped") && decide (b.pid = none)
          && decide (b.exitCode = none) && decide (b.startTime = none)) = true := by
  refine ⟨scan_loop_processes raws _, rfl, ?_, ?_⟩
  · rw [api_rescan]
    simp only
    rw [scan_loop_len]
    simp
  · intro r hr
    rcases scan_loop_mem hr with hmem | hex
    · exact absurd hmem (List.not_mem_nil r)
    · obtain ⟨b, hl, hst, hpid, hec, hstt⟩ := hex
      rw [api_rescan]
      simp only
      rw [hl]
      simp [hst, hpid, hec, hstt]

/-- Counterexample for C9 as stated: rescanning a concrete supervisor with
one running unit leaves that unit's RunRecord in the registry — the
running state is not discarded; the health route still counts one running
unit. -/
theorem rescan_registry_survives_cex :
    (api_rescan runningState [alphaRaw2]).1.processes
      = [("alpha_100", { pid := 1, returncode := none, botRef := 0, fd := 0 })] ∧
    (health (api_rescan runningState [alphaRaw2]).1).running = 1 ∧
    (api_rescan runningState [alphaRaw2]).1.watchers = [("alpha_100", 1)] :=
  ⟨by decide, by decide, by decide⟩

/-- Witness for the amended C9 at a concrete rescan. -/
theorem rescan_keeps_registry_witness :
    (alLookup 1 (api_rescan baseState [alphaRaw2]).1.heap).any
      (fun b => decide (b.status = "stopped") && decide (b.pid = none)
        && decide (b.exitCode = none) && decide (b.startTime = none)) = true :=
  (rescan_keeps_registry baseState [alphaRaw2]).2.2.2 1 (by decide)
